import Mathlib

/-!
Shallow embedding of the platform-game core in `src/client-mario-landv1gb.py`:
physics constants, AABB overlap, player input/physics, camera, game state
machine, and the per-tick update logic of `main`. Python floats are modelled
as rationals; the constants in the source are exact decimals.
-/

/-- `GB_H = 144`, the Game Boy LCD height (lower bound of the visible area). -/
def GB_H : ℚ := 144

/-- `GRAVITY = 0.25`. -/
def GRAVITY : ℚ := 1/4

/-- `PLAYER_ACCEL = 0.10`. -/
def PLAYER_ACCEL : ℚ := 1/10

/-- `PLAYER_DECEL = 0.15`. -/
def PLAYER_DECEL : ℚ := 3/20

/-- `PLAYER_MAX_SPEED = 1.6`. -/
def PLAYER_MAX_SPEED : ℚ := 8/5

/-- `JUMP_IMPULSE = 4.5`. -/
def JUMP_IMPULSE : ℚ := 9/2

/-- `SCROLL_EDGE = GB_W // 2 = 80`. -/
def SCROLL_EDGE : ℚ := 80

/-- An axis-aligned rectangle anchored at top-left `(x, y)` (platforms,
coins' and the goal's bounding boxes, the player's bounding box). -/
structure Rect where
  x : ℚ
  y : ℚ
  width : ℚ
  height : ℚ
  deriving DecidableEq

/-- The strict AABB overlap test used verbatim at every collision /
trigger site in the source:
`a.x < b.x + b.width and a.x + a.width > b.x and
 a.y < b.y + b.height and a.y + a.height > b.y`. -/
def overlapsB (a b : Rect) : Bool :=
  decide (a.x < b.x + b.width) && decide (a.x + a.width > b.x) &&
  decide (a.y < b.y + b.height) && decide (a.y + a.height > b.y)

/-- Sound effects of the `SoundEffects` bundle; the core signals them
fire-and-forget with `sounds.<name>.play()`. -/
inductive Sfx
  | jump
  | coin
  | stomp
  | victory
  | damage
  | gameover
  deriving DecidableEq

/-- The `Player` sprite: position, 8×16 size, velocity, `grounded`,
`alive`, and the walk-animation counters. -/
structure Player where
  x : ℚ
  y : ℚ
  width : ℚ
  height : ℚ
  velX : ℚ
  velY : ℚ
  grounded : Bool
  alive : Bool
  animTimer : ℕ
  frame : ℕ
  deriving DecidableEq

/-- `Player(x, y)`: 8×16 box, zero velocity, airborne, alive. -/
def mkPlayer (x y : ℚ) : Player :=
  { x := x, y := y, width := 8, height := 16, velX := 0, velY := 0,
    grounded := false, alive := true, animTimer := 0, frame := 0 }

/-- The player's bounding box. -/
def Player.rect (pl : Player) : Rect :=
  { x := pl.x, y := pl.y, width := pl.width, height := pl.height }

/-- Pressed-state of the keys the player controller reads:
left (←/A), right (→/D), jump (Z/Space). -/
structure Keys where
  left : Bool
  right : Bool
  jump : Bool

/-- The horizontal-velocity part of `Player.apply_input`: accelerate
toward `±PLAYER_MAX_SPEED` while a direction is held (left has priority,
`elif`), otherwise decay toward zero by `PLAYER_DECEL` without crossing it. -/
def velXStep (v : ℚ) (k : Keys) : ℚ :=
  if k.left then max (v - PLAYER_ACCEL) (-PLAYER_MAX_SPEED)
  else if k.right then min (v + PLAYER_ACCEL) PLAYER_MAX_SPEED
  else if v > 0 then max 0 (v - PLAYER_DECEL)
  else if v < 0 then min 0 (v + PLAYER_DECEL)
  else v

/-- `Player.apply_input`: no-op when dead; horizontal velocity via
`velXStep`; then, if jump is pressed while `grounded`, play the jump
sound, set `vel_y = -JUMP_IMPULSE` and clear `grounded`. -/
def applyInput (pl : Player) (k : Keys) (snd : List Sfx) : Player × List Sfx :=
  if !pl.alive then (pl, snd) else
  let pl := { pl with velX := velXStep pl.velX k }
  if k.jump && pl.grounded then
    ({ pl with velY := -JUMP_IMPULSE, grounded := false }, Sfx.jump :: snd)
  else (pl, snd)

/-- One iteration of the horizontal resolution loop of `Player.physics`:
on overlap, snap right edge to the platform's left when `vel_x > 0`,
left edge to the platform's right when `vel_x < 0`, and zero `vel_x`
(the assignment sits after the `if`/`elif`, so it also runs when
`vel_x == 0`). -/
def hStep (pl : Player) (p : Rect) : Player :=
  if overlapsB pl.rect p then
    if pl.velX > 0 then { pl with x := p.x - pl.width, velX := 0 }
    else if pl.velX < 0 then { pl with x := p.x + p.width, velX := 0 }
    else { pl with velX := 0 }
  else pl

/-- Horizontal move + resolve of `Player.physics`: `x += vel_x`, then the
platform loop in list order. -/
def moveH (pl : Player) (platforms : List Rect) : Player :=
  platforms.foldl hStep { pl with x := pl.x + pl.velX }

/-- One iteration of the vertical resolution loop of `Player.physics`:
on overlap, if falling snap bottom to the platform's top, zero `vel_y`,
set `grounded`; if rising snap top to the platform's bottom and zero
`vel_y`; nothing happens when `vel_y == 0`. -/
def vStep (pl : Player) (p : Rect) : Player :=
  if overlapsB pl.rect p then
    if pl.velY > 0 then { pl with y := p.y - pl.height, velY := 0, grounded := true }
    else if pl.velY < 0 then { pl with y := p.y + p.height, velY := 0 }
    else pl
  else pl

/-- Vertical move + resolve of `Player.physics`: `y += vel_y`, reset
`grounded = False`, then the platform loop in list order. -/
def moveV (pl : Player) (platforms : List Rect) : Player :=
  platforms.foldl vStep { pl with y := pl.y + pl.velY, grounded := false }

/-- `Player.physics`: gravity, horizontal move + resolve, vertical
move + resolve, in that order. -/
def Player.physics (pl : Player) (platforms : List Rect) : Player :=
  moveV (moveH { pl with velY := pl.velY + GRAVITY } platforms) platforms

/-- The animation block at the end of `Player.update`. -/
def animStep (pl : Player) : Player :=
  if pl.alive then
    let pl := { pl with animTimer := pl.animTimer + 1 }
    if |pl.velX| > 1/5 && pl.grounded then
      if pl.animTimer % 8 == 0 then { pl with frame := pl.frame ^^^ 1 } else pl
    else { pl with frame := 0 }
  else pl

/-- `Player.update`: apply input, physics, animation. -/
def playerUpdate (pl : Player) (k : Keys) (platforms : List Rect)
    (snd : List Sfx) : Player × List Sfx :=
  let r := applyInput pl k snd
  (animStep (Player.physics r.1 platforms), r.2)

/-- `Camera.update(target_x)` acting on `scroll_x`: scroll when the
target leads by more than `SCROLL_EDGE`, then clamp at zero. -/
def cameraUpdate (scroll target : ℚ) : ℚ :=
  let s := if target - scroll > SCROLL_EDGE then target - SCROLL_EDGE else scroll
  if s < 0 then 0 else s

/-- The string-tagged top-level mode of `GameState.state`. -/
inductive Mode
  | MENU
  | PLAYING
  | GAME_OVER
  | VICTORY
  deriving DecidableEq

/-- `GameState`: mode plus the `score`, `lives`, `coins`, `time`
counters and the frame-tick accumulator `timer`. -/
structure GameState where
  state : Mode
  score : ℤ
  lives : ℤ
  coins : ℤ
  time : ℤ
  timer : ℕ
  deriving DecidableEq

/-- `GameState()`: starts in the menu with 3 lives. -/
def initGameState : GameState :=
  { state := Mode.MENU, score := 0, lives := 3, coins := 0, time := 400, timer := 0 }

/-- `GameState.reset_level`: resets `score`, `coins`, `time`, `timer`
(and nothing else). -/
def GameState.reset_level (g : GameState) : GameState :=
  { g with score := 0, coins := 0, time := 400, timer := 0 }

/-- A `Coin`: 8×8 box plus a fractional animation phase. -/
structure Coin where
  x : ℚ
  y : ℚ
  frame : ℚ
  deriving DecidableEq

/-- A coin's bounding box (width = height = 8). -/
def Coin.rect (c : Coin) : Rect :=
  { x := c.x, y := c.y, width := 8, height := 8 }

/-- Exact real `a mod b` for `b > 0`, as Python's float `%` computes on
these inputs. -/
def qmod (a b : ℚ) : ℚ := a - b * (⌊a / b⌋ : ℤ)

/-- `Coin.update`: `frame = (frame + 0.15) % 4`. -/
def Coin.updateAnim (c : Coin) : Coin :=
  { c with frame := qmod (c.frame + 3/20) 4 }

/-- The platform list of `create_level_1_1()`. -/
def level1Platforms : List Rect :=
  [ { x := 0, y := 128, width := 200, height := 16 },
    { x := 224, y := 128, width := 200, height := 16 },
    { x := 448, y := 128, width := 400, height := 16 },
    { x := 160, y := 96, width := 32, height := 16 },
    { x := 256, y := 80, width := 48, height := 16 },
    { x := 352, y := 64, width := 32, height := 16 },
    { x := 480, y := 96, width := 64, height := 16 },
    { x := 600, y := 112, width := 32, height := 16 } ]

/-- The coin list of `create_level_1_1()`. -/
def level1Coins : List Coin :=
  [ { x := 176, y := 80, frame := 0 },
    { x := 272, y := 64, frame := 0 },
    { x := 368, y := 48, frame := 0 },
    { x := 496, y := 80, frame := 0 },
    { x := 512, y := 80, frame := 0 },
    { x := 616, y := 96, frame := 0 } ]

/-- The goal of `create_level_1_1()`: `Goal(800, 96)`, 16×32. -/
def level1Goal : Rect :=
  { x := 800, y := 96, width := 16, height := 32 }

/-- Everything owned by the frame loop in `main`: the game state, the
current player, level entities, the camera scroll, the `running` flag,
and the sound effects signaled so far (most recent first). -/
structure World where
  game : GameState
  player : Player
  platforms : List Rect
  coins : List Coin
  goal : Rect
  scrollX : ℚ
  running : Bool
  sounds : List Sfx

/-- The world `main` builds before the loop. -/
def initWorld : World :=
  { game := initGameState, player := mkPlayer 32 100,
    platforms := level1Platforms, coins := level1Coins, goal := level1Goal,
    scrollX := 0, running := true, sounds := [] }

/-- The two KEYDOWN events `main` handles edge-triggered. -/
inductive KeyEvent
  | escape
  | enter

/-- The KEYDOWN handler in `main`: Escape leaves Playing for Menu, or
stops the loop from any of Menu / GameOver / Victory; Enter from Menu or
GameOver enters Playing, calls `reset_level`, rebuilds level 1-1,
respawns the player at `(32, 100)` and zeroes the camera. -/
def handleKey (w : World) (e : KeyEvent) : World :=
  match e with
  | KeyEvent.escape =>
      if w.game.state = Mode.PLAYING then
        { w with game := { w.game with state := Mode.MENU } }
      else { w with running := false }
  | KeyEvent.enter =>
      if w.game.state = Mode.MENU ∨ w.game.state = Mode.GAME_OVER then
        { w with
          game := { w.game.reset_level with state := Mode.PLAYING },
          platforms := level1Platforms, coins := level1Coins,
          goal := level1Goal, player := mkPlayer 32 100, scrollX := 0 }
      else w

/-- The game-timer block at the top of the PLAYING branch: increment
`timer`; every 60 ticks decrement `time`; at `time <= 0` go to
GAME_OVER and play the gameover sound. -/
def timerStep (g : GameState) (snd : List Sfx) : GameState × List Sfx :=
  let g := { g with timer := g.timer + 1 }
  if g.timer % 60 == 0 then
    let g := { g with time := g.time - 1 }
    if g.time ≤ 0 then ({ g with state := Mode.GAME_OVER }, Sfx.gameover :: snd)
    else (g, snd)
  else (g, snd)

/-- `timerStep` iterated `n` times (n consecutive Playing ticks in which
only the timer block runs). -/
def timerTicks : ℕ → GameState → List Sfx → GameState × List Sfx
  | 0, g, snd => (g, snd)
  | n + 1, g, snd =>
      let r := timerTicks n g snd
      timerStep r.1 r.2

/-- The fell-off-screen block of the PLAYING branch: when `player.y >
GB_H`, decrement `lives`; at `lives <= 0` go to GAME_OVER with the
gameover sound, otherwise respawn at `(32, 100)`, zero the camera and
play the damage sound. -/
def fallCheck (w : World) : World :=
  if w.player.y > GB_H then
    let g := { w.game with lives := w.game.lives - 1 }
    if g.lives ≤ 0 then
      { w with
        game := { g with state := Mode.GAME_OVER },
        sounds := Sfx.gameover :: w.sounds }
    else
      { w with
        game := g, player := mkPlayer 32 100, scrollX := 0,
        sounds := Sfx.damage :: w.sounds }
  else w

/-- The coin loop of the PLAYING branch: each active coin advances its
animation, then overlapping coins are removed, bumping `coins` by 1 and
`score` by 200 and playing the coin sound per collected coin. -/
def collectCoins (pl : Player) :
    List Coin → GameState → List Sfx → List Coin × GameState × List Sfx
  | [], g, snd => ([], g, snd)
  | c :: cs, g, snd =>
      let c := c.updateAnim
      if overlapsB pl.rect c.rect then
        collectCoins pl cs
          { g with coins := g.coins + 1, score := g.score + 200 }
          (Sfx.coin :: snd)
      else
        let r := collectCoins pl cs g snd
        (c :: r.1, r.2.1, r.2.2)

/-- The goal check of the PLAYING branch: first overlap with the goal
switches to VICTORY and plays the victory sound. -/
def goalCheck (w : World) : World :=
  if overlapsB w.player.rect w.goal then
    { w with
      game := { w.game with state := Mode.VICTORY },
      sounds := Sfx.victory :: w.sounds }
  else w

/-- One full pass of the PLAYING branch of `main`'s loop body (the
branch runs to its end even when an early block switched the mode):
timer block, player update, fall check, camera update, coin loop, goal
check. -/
def playingTick (w : World) (k : Keys) : World :=
  let t := timerStep w.game w.sounds
  let w := { w with game := t.1, sounds := t.2 }
  let u := playerUpdate w.player k w.platforms w.sounds
  let w := { w with player := u.1, sounds := u.2 }
  let w := fallCheck w
  let w := { w with scrollX := cameraUpdate w.scrollX w.player.x }
  let cc := collectCoins w.player w.coins w.game w.sounds
  let w := { w with coins := cc.1, game := cc.2.1, sounds := cc.2.2 }
  goalCheck w

/-- One iteration of the loop body after event handling: only the
PLAYING branch mutates the world (the other branches draw text only). -/
def frameStep (w : World) (k : Keys) : World :=
  if w.game.state = Mode.PLAYING then playingTick w k else w

/-- A playing world: the `GameState` right after a fresh start action
(`reset_level` with 3 lives), used by the timer claims. -/
def freshPlaying : GameState := { initGameState with state := Mode.PLAYING }

/-- A rightward-moving player used in the multi-platform horizontal
resolution scenario. -/
def c2Player : Player := { mkPlayer 0 0 with velX := 10 }

/-- First platform of the scenario: overlapped by the moved box. -/
def c2PlatA : Rect := { x := 12, y := 0, width := 5, height := 16 }

/-- Second platform of the scenario: also overlapped by the moved box,
later in the list. -/
def c2PlatB : Rect := { x := 9, y := 0, width := 2, height := 16 }

/-- The spec's jump scenario: player at the spawn point `(32, 100)`,
grounded, at rest. -/
def c9Player : Player := { mkPlayer 32 100 with grounded := true }

/-- Jump held, no direction held. -/
def c9Keys : Keys := { left := false, right := false, jump := true }

/-- A game-over world with exhausted lives, as left behind by the final
fall of a session. -/
def c1World : World :=
  { initWorld with game := { initGameState with state := Mode.GAME_OVER, lives := 0 } }

/-- C7: `scroll_x` is never negative; with a non-negative scroll each
update is non-decreasing, scrolling to `target - SCROLL_EDGE` exactly
when the target leads by more than `SCROLL_EDGE` and staying put
otherwise; and from `scroll_x = 0` a target past `SCROLL_EDGE + 1`
yields `scroll_x = target - SCROLL_EDGE`. -/
theorem claim_C7 :
    (∀ s t : ℚ, 0 ≤ cameraUpdate s t) ∧
    (∀ s t : ℚ, 0 ≤ s →
      s ≤ cameraUpdate s t ∧
      (t - s > SCROLL_EDGE → cameraUpdate s t = t - SCROLL_EDGE) ∧
      (t - s ≤ SCROLL_EDGE → cameraUpdate s t = s)) ∧
    (∀ x : ℚ, x > SCROLL_EDGE + 1 → cameraUpdate 0 x = x - SCROLL_EDGE) := by
  unfold cameraUpdate SCROLL_EDGE
  refine ⟨fun s t => ?_, fun s t hs => ⟨?_, fun h => ?_, fun h => ?_⟩, fun x hx => ?_⟩ <;>
    dsimp only <;> split_ifs <;> linarith

/-- Witness for C7 at `scroll_x = 0`, `target_x = 100`. -/
theorem claim_C7_witness : cameraUpdate 0 100 = 100 - SCROLL_EDGE :=
  (claim_C7.2.1 0 100 (by norm_num)).2.1 (by norm_num [SCROLL_EDGE])

/-- C3: vertical resolution adds `vel_y` to `y` and resets `grounded`
before the platform sweep; on an overlap while falling it snaps the
bottom edge to the platform top, zeroes `vel_y` and grounds the player;
on an overlap while rising it snaps the top edge to the platform bottom
and zeroes `vel_y`, leaving `grounded` unchanged; a non-overlapping
platform changes nothing. -/
theorem claim_C3 :
    (∀ (pl : Player) (platforms : List Rect),
      moveV pl platforms =
        platforms.foldl vStep { pl with y := pl.y + pl.velY, grounded := false }) ∧
    (∀ (pl : Player) (p : Rect), overlapsB pl.rect p = true → pl.velY > 0 →
      vStep pl p = { pl with y := p.y - pl.height, velY := 0, grounded := true }) ∧
    (∀ (pl : Player) (p : Rect), overlapsB pl.rect p = true → pl.velY < 0 →
      vStep pl p = { pl with y := p.y + p.height, velY := 0 }) ∧
    (∀ (pl : Player) (p : Rect), overlapsB pl.rect p = false →
      vStep pl p = pl) := by
  refine ⟨fun pl platforms => rfl, fun pl p ho hv => ?_, fun pl p ho hv => ?_,
    fun pl p ho => ?_⟩
  · simp [vStep, ho, hv]
  · have : ¬ pl.velY > 0 := by linarith
    simp [vStep, ho, hv, this]
  · simp [vStep, ho]

/-- Witness for C3: a player falling at `vel_y = 5` overlapping the
ground platform is snapped onto its top. -/
theorem claim_C3_witness :
    vStep { mkPlayer 0 120 with velY := 5 } { x := 0, y := 128, width := 200, height := 16 } =
      { { mkPlayer 0 120 with velY := 5 } with y := 112, velY := 0, grounded := true } := by
  have h := claim_C3.2.1 { mkPlayer 0 120 with velY := 5 }
    { x := 0, y := 128, width := 200, height := 16 }
    (by norm_num [overlapsB, Player.rect, mkPlayer]) (by norm_num [mkPlayer])
  rw [h]
  norm_num [mkPlayer]

/-- C10: in the VICTORY state, Enter (confirm) leaves the whole world —
mode, counters, level, player — unchanged; Escape only clears the
`running` flag; and the per-tick loop body is the identity. -/
theorem claim_C10 :
    ∀ w : World, w.game.state = Mode.VICTORY →
      handleKey w KeyEvent.enter = w ∧
      handleKey w KeyEvent.escape = { w with running := false } ∧
      ∀ k : Keys, frameStep w k = w := by
  intro w h
  refine ⟨?_, ?_, fun k => ?_⟩ <;> simp [handleKey, frameStep, h]

/-- Witness for C10 at a concrete victory world. -/
theorem claim_C10_witness :
    handleKey { initWorld with game := { initGameState with state := Mode.VICTORY } }
      KeyEvent.enter =
    { initWorld with game := { initGameState with state := Mode.VICTORY } } :=
  (claim_C10 { initWorld with game := { initGameState with state := Mode.VICTORY } } rfl).1

/-- C1 fails on the code: `reset_level` touches only `score`, `coins`,
`time`, `timer`, so pressing Enter in GAME_OVER with exhausted lives
re-enters PLAYING with `lives` still 0, not the starting value 3. -/
theorem claim_C1_counterexample :
    c1World.game.state = Mode.GAME_OVER ∧
    (handleKey c1World KeyEvent.enter).game.state = Mode.PLAYING ∧
    (handleKey c1World KeyEvent.enter).game.lives = 0 ∧
    (0 : ℤ) ≠ 3 := by
  refine ⟨rfl, ?_, ?_, by norm_num⟩ <;>
    simp [handleKey, c1World, initWorld, initGameState, GameState.reset_level]

/-- C1 amended: Enter in Menu or GameOver enters PLAYING, resets
`score`, `coins`, `time` and the tick accumulator, rebuilds level 1-1,
respawns the player at `(32, 100)` and zeroes the camera — but `lives`
keeps its current value (it is 3 only because `GameState()` starts
there; no fresh-start action ever restores it). -/
theorem claim_C1_amended :
    ∀ w : World, w.game.state = Mode.MENU ∨ w.game.state = Mode.GAME_OVER →
      (handleKey w KeyEvent.enter).game.state = Mode.PLAYING ∧
      (handleKey w KeyEvent.enter).game.score = 0 ∧
      (handleKey w KeyEvent.enter).game.coins = 0 ∧
      (handleKey w KeyEvent.enter).game.time = 400 ∧
      (handleKey w KeyEvent.enter).game.timer = 0 ∧
      (handleKey w KeyEvent.enter).game.lives = w.game.lives ∧
      (handleKey w KeyEvent.enter).player = mkPlayer 32 100 ∧
      (handleKey w KeyEvent.enter).scrollX = 0 ∧
      (handleKey w KeyEvent.enter).platforms = level1Platforms ∧
      (handleKey w KeyEvent.enter).coins = level1Coins := by
  intro w h
  simp [handleKey, h, GameState.reset_level]

/-- Witness for the amended C1 at the initial (menu) world. -/
theorem claim_C1_witness :
    (handleKey initWorld KeyEvent.enter).game.lives = initWorld.game.lives :=
  (claim_C1_amended initWorld (Or.inl rfl)).2.2.2.2.2.1

/-- C5: when the player's `y` exceeds the visible bound `GB_H` during a
Playing tick, `lives` drops by 1; with lives left the player respawns at
`(32, 100)`, the camera resets and the damage sound plays; from
`lives = 1` the result is `lives = 0`, GAME_OVER with the gameover
sound, and no respawn. -/
theorem claim_C5 :
    ∀ w : World, w.player.y > GB_H →
      (fallCheck w).game.lives = w.game.lives - 1 ∧
      (w.game.lives - 1 > 0 →
        (fallCheck w).game.state = w.game.state ∧
        (fallCheck w).player = mkPlayer 32 100 ∧
        (fallCheck w).scrollX = 0 ∧
        (fallCheck w).sounds = Sfx.damage :: w.sounds) ∧
      (w.game.lives = 1 →
        (fallCheck w).game.lives = 0 ∧
        (fallCheck w).game.state = Mode.GAME_OVER ∧
        (fallCheck w).sounds = Sfx.gameover :: w.sounds ∧
        (fallCheck w).player = w.player ∧
        (fallCheck w).scrollX = w.scrollX) := by
  intro w h
  by_cases h2 : w.game.lives - 1 ≤ 0
  · refine ⟨?_, fun h3 => absurd h2 (by linarith), fun h4 => ?_⟩ <;>
      (simp [fallCheck, h, h2]; try omega)
  · refine ⟨?_, fun h3 => ?_, fun h4 => absurd h2 (by simp; linarith)⟩ <;>
      simp [fallCheck, h, h2]

/-- Witness for C5: a fall at `lives = 1` yields GAME_OVER. -/
theorem claim_C5_witness :
    (fallCheck { initWorld with
        game := { initGameState with state := Mode.PLAYING, lives := 1 },
        player := mkPlayer 32 200 }).game.state = Mode.GAME_OVER :=
  ((claim_C5 { initWorld with
      game := { initGameState with state := Mode.PLAYING, lives := 1 },
      player := mkPlayer 32 200 }
    (by norm_num [mkPlayer, GB_H])).2.2 rfl).2.1

/-- Once `vel_x` is zero, the rest of the horizontal sweep never moves
the player: every further overlap only re-assigns `vel_x = 0`. -/
theorem foldl_hStep_of_velX_zero :
    ∀ (platforms : List Rect) (pl : Player), pl.velX = 0 →
      (platforms.foldl hStep pl).x = pl.x ∧ (platforms.foldl hStep pl).velX = 0 := by
  intro platforms
  induction platforms with
  | nil => exact fun pl h => ⟨rfl, h⟩
  | cons p ps ih =>
      intro pl h
      have hstep : (hStep pl p).x = pl.x ∧ (hStep pl p).velX = 0 := by
        by_cases ho : overlapsB pl.rect p = true
        · have h1 : ¬ pl.velX > 0 := by rw [h]; exact lt_irrefl 0
          have h2 : ¬ pl.velX < 0 := by rw [h]; exact lt_irrefl 0
          simp [hStep, ho, h1, h2]
        · simp [hStep, ho, h]
      have := ih (hStep pl p) hstep.2
      simp only [List.foldl_cons]
      exact ⟨this.1.trans hstep.1, this.2⟩

/-- C2 fails on the code: in the scenario `c2Player` / `[c2PlatA,
c2PlatB]` the moved box overlaps both platforms and neither was
overlapped before, yet the sweep leaves the player flush with the FIRST
platform (`x = c2PlatA.x - width = 4`): `c2PlatB` satisfies the claim's
premises but the player is not flush with it, so the last overlapping
platform does not determine the final position. -/
theorem claim_C2_counterexample :
    overlapsB c2Player.rect c2PlatA = false ∧
    overlapsB c2Player.rect c2PlatB = false ∧
    overlapsB { c2Player.rect with x := c2Player.x + c2Player.velX } c2PlatB = true ∧
    c2Player.velX > 0 ∧
    (moveH c2Player [c2PlatA, c2PlatB]).x = c2PlatA.x - c2Player.width ∧
    ¬ ((moveH c2Player [c2PlatA, c2PlatB]).x + (moveH c2Player [c2PlatA, c2PlatB]).width
        = c2PlatB.x) := by
  set_option maxRecDepth 4000 in
  refine ⟨?_, ?_, ?_, ?_, ?_, ?_⟩ <;>
    norm_num [moveH, hStep, c2Player, c2PlatA, c2PlatB, mkPlayer, overlapsB, Player.rect]

/-- C2 amended: a platform overlapped while `vel_x` is still nonzero is
resolved flush (right edge to its left when moving right, left edge to
its right when moving left) with `vel_x` zeroed; since the first
overlapping platform zeroes `vel_x`, later platforms in the list leave
the position unchanged — the FIRST overlapping platform in list order,
not the last, determines the final position. Against a single platform
not intersected before the move, the resolved edge is flush and
`vel_x = 0`, as the spec's testable property states. -/
theorem claim_C2_amended :
    (∀ (pl : Player) (p : Rect), overlapsB pl.rect p = true → pl.velX > 0 →
      hStep pl p = { pl with x := p.x - pl.width, velX := 0 }) ∧
    (∀ (pl : Player) (p : Rect), overlapsB pl.rect p = true → pl.velX < 0 →
      hStep pl p = { pl with x := p.x + p.width, velX := 0 }) ∧
    (∀ (pl : Player) (platforms : List Rect), pl.velX = 0 →
      (platforms.foldl hStep pl).x = pl.x ∧ (platforms.foldl hStep pl).velX = 0) ∧
    (∀ (pl : Player) (p : Rect),
      overlapsB pl.rect p = false →
      overlapsB { pl.rect with x := pl.x + pl.velX } p = true →
      (pl.velX > 0 → (moveH pl [p]).x + pl.width = p.x) ∧
      (pl.velX < 0 → (moveH pl [p]).x = p.x + p.width) ∧
      (moveH pl [p]).velX = 0) := by
  have hpos : ∀ (pl : Player) (p : Rect), overlapsB pl.rect p = true → pl.velX > 0 →
      hStep pl p = { pl with x := p.x - pl.width, velX := 0 } := by
    intro pl p ho hv; simp [hStep, ho, hv]
  have hneg : ∀ (pl : Player) (p : Rect), overlapsB pl.rect p = true → pl.velX < 0 →
      hStep pl p = { pl with x := p.x + p.width, velX := 0 } := by
    intro pl p ho hv
    have : ¬ pl.velX > 0 := by linarith
    simp [hStep, ho, hv, this]
  refine ⟨hpos, hneg, fun pl platforms h => foldl_hStep_of_velX_zero platforms pl h,
    fun pl p hbefore hafter => ?_⟩
  have hrect : ({ pl with x := pl.x + pl.velX } : Player).rect =
      { pl.rect with x := pl.x + pl.velX } := rfl
  have hafter' : overlapsB ({ pl with x := pl.x + pl.velX } : Player).rect p = true := by
    rw [hrect]; exact hafter
  refine ⟨fun hv => ?_, fun hv => ?_, ?_⟩
  · rw [moveH, List.foldl_cons, List.foldl_nil, hpos _ _ hafter' hv]
    ring
  · rw [moveH, List.foldl_cons, List.foldl_nil, hneg _ _ hafter' hv]
  · rcases lt_trichotomy pl.velX 0 with hv | hv | hv
    · rw [moveH, List.foldl_cons, List.foldl_nil, hneg _ _ hafter' hv]
    · exfalso
      have : ({ pl with x := pl.x + pl.velX } : Player).rect = pl.rect := by
        rw [hrect, hv, add_zero]
        exact congrArg _ rfl
      rw [this, hbefore] at hafter'
      exact Bool.false_ne_true hafter'
    · rw [moveH, List.foldl_cons, List.foldl_nil, hpos _ _ hafter' hv]

/-- Witness for the amended C2: the rightward scenario player against
`c2PlatA` alone ends flush with its left edge. -/
theorem claim_C2_witness :
    (moveH c2Player [c2PlatA]).x + c2Player.width = c2PlatA.x :=
  (claim_C2_amended.2.2.2 c2Player c2PlatA
      (by norm_num [overlapsB, Player.rect, c2Player, c2PlatA, mkPlayer])
      (by norm_num [overlapsB, Player.rect, c2Player, c2PlatA, mkPlayer])).1
    (by norm_num [c2Player, mkPlayer])

/-- One input step keeps the horizontal velocity inside
`[-PLAYER_MAX_SPEED, PLAYER_MAX_SPEED]`. -/
theorem velXStep_mem (v : ℚ) (k : Keys)
    (h1 : -PLAYER_MAX_SPEED ≤ v) (h2 : v ≤ PLAYER_MAX_SPEED) :
    -PLAYER_MAX_SPEED ≤ velXStep v k ∧ velXStep v k ≤ PLAYER_MAX_SPEED := by
  unfold velXStep PLAYER_MAX_SPEED PLAYER_ACCEL PLAYER_DECEL at *
  constructor <;> split_ifs <;>
    (try simp only [le_max_iff, max_le_iff, le_min_iff, min_le_iff]) <;>
    first
      | (left; linarith)
      | (right; linarith)
      | (constructor <;> linarith)
      | linarith

/-- C6: over every sequence of per-tick direction inputs the horizontal
velocity stays in `[-PLAYER_MAX_SPEED, PLAYER_MAX_SPEED]`; holding a
direction moves it toward the corresponding bound without exceeding it;
with no direction held it decays toward zero without crossing it; and
`apply_input` on a live player realises exactly this step. -/
theorem claim_C6 :
    (∀ (ks : List Keys) (v : ℚ), -PLAYER_MAX_SPEED ≤ v → v ≤ PLAYER_MAX_SPEED →
      -PLAYER_MAX_SPEED ≤ ks.foldl velXStep v ∧ ks.foldl velXStep v ≤ PLAYER_MAX_SPEED) ∧
    (∀ (v : ℚ) (k : Keys), k.left = false → k.right = true → v ≤ PLAYER_MAX_SPEED →
      v ≤ velXStep v k ∧ velXStep v k ≤ PLAYER_MAX_SPEED) ∧
    (∀ (v : ℚ) (k : Keys), k.left = true → -PLAYER_MAX_SPEED ≤ v →
      velXStep v k ≤ v ∧ -PLAYER_MAX_SPEED ≤ velXStep v k) ∧
    (∀ (v : ℚ) (k : Keys), k.left = false → k.right = false →
      (v > 0 → 0 ≤ velXStep v k ∧ velXStep v k ≤ v) ∧
      (v < 0 → v ≤ velXStep v k ∧ velXStep v k ≤ 0)) ∧
    (∀ (pl : Player) (k : Keys) (snd : List Sfx), pl.alive = true →
      (applyInput pl k snd).1.velX = velXStep pl.velX k) := by
  refine ⟨?_, ?_, ?_, ?_, ?_⟩
  · intro ks
    induction ks with
    | nil => exact fun v h1 h2 => ⟨h1, h2⟩
    | cons k ks ih =>
        intro v h1 h2
        have h := velXStep_mem v k h1 h2
        simpa only [List.foldl_cons] using ih (velXStep v k) h.1 h.2
  · intro v k hl hr hv
    unfold velXStep PLAYER_MAX_SPEED PLAYER_ACCEL at *
    rw [hl, hr]
    simp only [Bool.false_eq_true, if_false, if_true, le_min_iff, min_le_iff]
    refine ⟨⟨by linarith, hv⟩, Or.inr le_rfl⟩
  · intro v k hl hv
    unfold velXStep PLAYER_MAX_SPEED PLAYER_ACCEL at *
    rw [hl]
    simp only [if_true, max_le_iff, le_max_iff]
    refine ⟨⟨by linarith, hv⟩, Or.inr le_rfl⟩
  · intro v k hl hr
    unfold velXStep PLAYER_DECEL
    rw [hl, hr]
    simp only [Bool.false_eq_true, if_false]
    constructor
    · intro hv
      rw [if_pos hv]
      simp only [le_max_iff, max_le_iff]
      refine ⟨Or.inl le_rfl, ?_⟩
      constructor <;> linarith
    · intro hv
      have : ¬ v > 0 := by linarith
      rw [if_neg this, if_pos hv]
      simp only [le_min_iff, min_le_iff]
      refine ⟨⟨by linarith, by linarith⟩, Or.inl le_rfl⟩
  · intro pl k snd ha
    simp [applyInput, ha]
    split_ifs <;> rfl

/-- Witness for C6: ten ticks of holding right from rest stay within
the speed bound. -/
theorem claim_C6_witness :
    (List.replicate 10 ({ left := false, right := true, jump := false } : Keys)).foldl
        velXStep 0 ≤ PLAYER_MAX_SPEED :=
  (claim_C6.1 (List.replicate 10 { left := false, right := true, jump := false }) 0
    (by norm_num [PLAYER_MAX_SPEED]) (by norm_num [PLAYER_MAX_SPEED])).2

/-- A coin's animation advance does not move its bounding box. -/
theorem Coin.rect_updateAnim (c : Coin) : (Coin.updateAnim c).rect = c.rect := rfl

/-- Full characterization of the coin loop: retained coins are exactly
the non-overlapping ones (animated), the counters grow with the number
of overlapping coins, the other `GameState` fields are untouched, and
one coin sound is signaled per collected coin. -/
theorem collectCoins_spec (pl : Player) :
    ∀ (cs : List Coin) (g : GameState) (snd : List Sfx),
      (collectCoins pl cs g snd).1 =
        (cs.filter fun c => !overlapsB pl.rect c.rect).map Coin.updateAnim ∧
      (collectCoins pl cs g snd).2.1.coins =
        g.coins + ((cs.countP fun c => overlapsB pl.rect c.rect) : ℤ) ∧
      (collectCoins pl cs g snd).2.1.score =
        g.score + 200 * ((cs.countP fun c => overlapsB pl.rect c.rect) : ℤ) ∧
      (collectCoins pl cs g snd).2.1.state = g.state ∧
      (collectCoins pl cs g snd).2.1.lives = g.lives ∧
      (collectCoins pl cs g snd).2.1.time = g.time ∧
      (collectCoins pl cs g snd).2.1.timer = g.timer ∧
      (collectCoins pl cs g snd).2.2 =
        List.replicate (cs.countP fun c => overlapsB pl.rect c.rect) Sfx.coin ++ snd := by
  intro cs
  induction cs with
  | nil =>
      intro g snd
      refine ⟨rfl, ?_, ?_, rfl, rfl, rfl, rfl, rfl⟩ <;> simp [collectCoins]
  | cons c cs ih =>
      intro g snd
      by_cases ho : overlapsB pl.rect c.rect = true
      · have hrec : collectCoins pl (c :: cs) g snd =
            collectCoins pl cs
              { g with coins := g.coins + 1, score := g.score + 200 }
              (Sfx.coin :: snd) := by
          simp [collectCoins, Coin.rect_updateAnim, ho]
        have h := ih { g with coins := g.coins + 1, score := g.score + 200 }
          (Sfx.coin :: snd)
        rw [hrec]
        refine ⟨?_, ?_, ?_, h.2.2.2.1, h.2.2.2.2.1, h.2.2.2.2.2.1,
          h.2.2.2.2.2.2.1, ?_⟩
        · rw [h.1]
          simp [List.filter_cons, ho]
        · rw [h.2.1]
          simp only [List.countP_cons, ho, if_true]
          push_cast
          ring
        · rw [h.2.2.1]
          simp only [List.countP_cons, ho, if_true]
          push_cast
          ring
        · rw [h.2.2.2.2.2.2.2]
          simp only [List.countP_cons, ho, if_true, List.replicate_succ']
          rw [List.append_assoc]
          rfl
      · have hof : overlapsB pl.rect c.rect = false := by
          revert ho; cases overlapsB pl.rect c.rect <;> simp
        have hrec : collectCoins pl (c :: cs) g snd =
            ((Coin.updateAnim c) :: (collectCoins pl cs g snd).1,
             (collectCoins pl cs g snd).2.1, (collectCoins pl cs g snd).2.2) := by
          simp [collectCoins, Coin.rect_updateAnim, hof]
        have h := ih g snd
        rw [hrec]
        refine ⟨?_, h.2.1.trans ?_, h.2.2.1.trans ?_, h.2.2.2.1, h.2.2.2.2.1,
          h.2.2.2.2.2.1, h.2.2.2.2.2.2.1, h.2.2.2.2.2.2.2.trans ?_⟩
        · rw [h.1]
          simp [List.filter_cons, hof]
        · simp [List.countP_cons, hof]
        · simp [List.countP_cons, hof]
        · simp [List.countP_cons, hof]

/-- C8: each Playing tick, every active coin overlapping the player is
removed from the active collection, `coins` rises by exactly 1 and
`score` by the fixed reward 200 per such coin, a coin sound is signaled
per such coin, and every retained coin fails the overlap test — a
removed coin can never be collected again. -/
theorem claim_C8 :
    ∀ (pl : Player) (cs : List Coin) (g : GameState) (snd : List Sfx),
      (collectCoins pl cs g snd).1 =
        (cs.filter fun c => !overlapsB pl.rect c.rect).map Coin.updateAnim ∧
      (collectCoins pl cs g snd).2.1.coins =
        g.coins + ((cs.countP fun c => overlapsB pl.rect c.rect) : ℤ) ∧
      (collectCoins pl cs g snd).2.1.score =
        g.score + 200 * ((cs.countP fun c => overlapsB pl.rect c.rect) : ℤ) ∧
      (collectCoins pl cs g snd).2.2 =
        List.replicate (cs.countP fun c => overlapsB pl.rect c.rect) Sfx.coin ++ snd ∧
      ∀ c ∈ (collectCoins pl cs g snd).1, overlapsB pl.rect c.rect = false := by
  intro pl cs g snd
  have h := collectCoins_spec pl cs g snd
  refine ⟨h.1, h.2.1, h.2.2.1, h.2.2.2.2.2.2.2, ?_⟩
  intro c hc
  rw [h.1] at hc
  rcases List.mem_map.mp hc with ⟨c2, hc2, hup⟩
  rcases List.mem_filter.mp hc2 with ⟨_, hpred⟩
  rw [← hup, Coin.rect_updateAnim]
  revert hpred
  cases overlapsB pl.rect c2.rect <;> simp

/-- Witness for C8: a player standing on a coin collects exactly it;
the far coin is retained and still fails the overlap test. -/
theorem claim_C8_witness :
    (collectCoins (mkPlayer 176 80)
        [{ x := 176, y := 80, frame := 0 }, { x := 500, y := 80, frame := 0 }]
        initGameState []).2.1.coins = initGameState.coins + 1 ∧
    overlapsB (mkPlayer 176 80).rect
        (Coin.updateAnim { x := 500, y := 80, frame := 0 }).rect = false := by
  have h := claim_C8 (mkPlayer 176 80)
    [{ x := 176, y := 80, frame := 0 }, { x := 500, y := 80, frame := 0 }]
    initGameState []
  constructor
  · rw [h.2.1]
    norm_num [List.countP_cons, overlapsB, Player.rect, Coin.rect, mkPlayer]
  · refine h.2.2.2.2 (Coin.updateAnim { x := 500, y := 80, frame := 0 }) ?_
    rw [h.1]
    norm_num [List.filter_cons, overlapsB, Player.rect, Coin.rect, mkPlayer]

/-- The timer block always increments the tick accumulator by one. -/
theorem timerStep_timer (g : GameState) (snd : List Sfx) :
    (timerStep g snd).1.timer = g.timer + 1 := by
  unfold timerStep
  dsimp only
  split_ifs <;> rfl

/-- The timer block decrements `time` exactly when the incremented
accumulator is a multiple of 60. -/
theorem timerStep_time (g : GameState) (snd : List Sfx) :
    (timerStep g snd).1.time =
      if (g.timer + 1) % 60 = 0 then g.time - 1 else g.time := by
  unfold timerStep
  by_cases h60 : (g.timer + 1) % 60 = 0 <;>
    (simp [h60]; try (split_ifs <;> rfl))

/-- The timer block switches to GAME_OVER exactly when a decrement
lands at or below zero. -/
theorem timerStep_state (g : GameState) (snd : List Sfx) :
    (timerStep g snd).1.state =
      if (g.timer + 1) % 60 = 0 ∧ g.time - 1 ≤ 0 then Mode.GAME_OVER
      else g.state := by
  unfold timerStep
  by_cases h60 : (g.timer + 1) % 60 = 0 <;>
    by_cases ht : g.time - 1 ≤ 0 <;>
    simp [h60, ht]

/-- The timer block signals the gameover sound exactly when it
transitions. -/
theorem timerStep_sounds (g : GameState) (snd : List Sfx) :
    (timerStep g snd).2 =
      if (g.timer + 1) % 60 = 0 ∧ g.time - 1 ≤ 0 then Sfx.gameover :: snd
      else snd := by
  unfold timerStep
  by_cases h60 : (g.timer + 1) % 60 = 0 <;>
    by_cases ht : g.time - 1 ≤ 0 <;>
    simp [h60, ht]

/-- Closed form of the first 23999 timer-only ticks of a fresh Playing
session: still PLAYING, accumulator `= n`, `time = 400 - n / 60`, no
sound signaled. -/
theorem timerTicks_closed :
    ∀ n : ℕ, n ≤ 23999 →
      (timerTicks n freshPlaying []).1.state = Mode.PLAYING ∧
      (timerTicks n freshPlaying []).1.timer = n ∧
      (timerTicks n freshPlaying []).1.time = 400 - ((n / 60 : ℕ) : ℤ) ∧
      (timerTicks n freshPlaying []).2 = [] := by
  intro n
  induction n with
  | zero =>
      intro _
      refine ⟨rfl, rfl, ?_, rfl⟩
      norm_num [timerTicks, freshPlaying, initGameState]
  | succ m ih =>
      intro h
      have hm : m ≤ 23999 := by omega
      obtain ⟨hstate, htimer, htime, hsnd⟩ := ih hm
      have hrec : timerTicks (m + 1) freshPlaying [] =
          timerStep (timerTicks m freshPlaying []).1
            (timerTicks m freshPlaying []).2 := rfl
      have hnogo : ¬ (((timerTicks m freshPlaying []).1.timer + 1) % 60 = 0 ∧
          (timerTicks m freshPlaying []).1.time - 1 ≤ 0) := by
        rw [htimer, htime]
        rintro ⟨h60, hle⟩
        omega
      refine ⟨?_, ?_, ?_, ?_⟩
      · rw [hrec, timerStep_state, if_neg hnogo, hstate]
      · rw [hrec, timerStep_timer, htimer]
      · rw [hrec, timerStep_time, htimer, htime]
        split_ifs with h60 <;> push_cast <;> omega
      · rw [hrec, timerStep_sounds, if_neg hnogo, hsnd]

/-- `fallCheck` never touches the tick accumulator. -/
theorem fallCheck_timer (w : World) : (fallCheck w).game.timer = w.game.timer := by
  unfold fallCheck
  dsimp only
  split_ifs <;> rfl

/-- `goalCheck` never touches the tick accumulator. -/
theorem goalCheck_timer (w : World) : (goalCheck w).game.timer = w.game.timer := by
  unfold goalCheck
  split_ifs <;> rfl

/-- The coin loop never touches the tick accumulator. -/
theorem collectCoins_timer (pl : Player) (cs : List Coin) (g : GameState)
    (snd : List Sfx) : (collectCoins pl cs g snd).2.1.timer = g.timer :=
  (collectCoins_spec pl cs g snd).2.2.2.2.2.2.1

/-- C4: each Playing tick increments the accumulator by exactly one
(both for the timer block and for the full loop body); `time` drops by
1 exactly every 60 ticks; from a fresh Playing state the first 23999
timer ticks stay PLAYING, and tick 24000 lands at `time = 0`, switches
to GAME_OVER and signals the gameover sound. -/
theorem claim_C4 :
    (∀ (g : GameState) (snd : List Sfx), (timerStep g snd).1.timer = g.timer + 1) ∧
    (∀ (g : GameState) (snd : List Sfx),
      (timerStep g snd).1.time =
        if (g.timer + 1) % 60 = 0 then g.time - 1 else g.time) ∧
    (∀ (w : World) (k : Keys), w.game.state = Mode.PLAYING →
      (frameStep w k).game.timer = w.game.timer + 1) ∧
    (∀ n : ℕ, n ≤ 23999 → (timerTicks n freshPlaying []).1.state = Mode.PLAYING) ∧
    (timerTicks 24000 freshPlaying []).1.time = 0 ∧
    (timerTicks 24000 freshPlaying []).1.state = Mode.GAME_OVER ∧
    (timerTicks 24000 freshPlaying []).2 = [Sfx.gameover] := by
  have h23999 := timerTicks_closed 23999 (le_refl _)
  have hrec : timerTicks 24000 freshPlaying [] =
      timerStep (timerTicks 23999 freshPlaying []).1
        (timerTicks 23999 freshPlaying []).2 := rfl
  have hdiv : ((23999 : ℕ) / 60 : ℕ) = 399 := by norm_num
  have hgo : (((timerTicks 23999 freshPlaying []).1.timer + 1) % 60 = 0 ∧
      (timerTicks 23999 freshPlaying []).1.time - 1 ≤ 0) := by
    rw [h23999.2.1, h23999.2.2.1, hdiv]
    norm_num
  refine ⟨timerStep_timer, timerStep_time, ?_, fun n hn => (timerTicks_closed n hn).1,
    ?_, ?_, ?_⟩
  · intro w k h
    have hp : frameStep w k = playingTick w k := by simp [frameStep, h]
    rw [hp]
    unfold playingTick
    dsimp only
    rw [goalCheck_timer]
    dsimp only
    rw [collectCoins_timer]
    rw [fallCheck_timer]
    dsimp only
    rw [timerStep_timer]
  · rw [hrec, timerStep_time, h23999.2.1, h23999.2.2.1, hdiv]
    norm_num
  · rw [hrec, timerStep_state, if_pos hgo]
  · rw [hrec, timerStep_sounds, if_pos hgo, h23999.2.2.2]

/-- Witness for C4 at the first tick of a fresh session. -/
theorem claim_C4_witness :
    (timerTicks 0 freshPlaying []).1.state = Mode.PLAYING :=
  claim_C4.2.2.2.1 0 (by norm_num)

/-- C9: jump pressed while grounded sets `vel_y = -JUMP_IMPULSE`,
clears `grounded` and signals the jump sound before gravity runs; while
airborne a pressed jump leaves `vel_y`, `grounded` and the sound queue
alone (no double jump); and in the spec's spawn scenario a full tick
ends with `vel_y = -JUMP_IMPULSE + GRAVITY` and `grounded = false`. -/
theorem claim_C9 :
    (∀ (pl : Player) (k : Keys) (snd : List Sfx),
      pl.alive = true → k.jump = true → pl.grounded = true →
      (applyInput pl k snd).1.velY = -JUMP_IMPULSE ∧
      (applyInput pl k snd).1.grounded = false ∧
      (applyInput pl k snd).2 = Sfx.jump :: snd) ∧
    (∀ (pl : Player) (k : Keys) (snd : List Sfx), pl.grounded = false →
      (applyInput pl k snd).1.velY = pl.velY ∧
      (applyInput pl k snd).1.grounded = false ∧
      (applyInput pl k snd).2 = snd) ∧
    ((playerUpdate c9Player c9Keys level1Platforms []).1.velY =
        -JUMP_IMPULSE + GRAVITY ∧
     (playerUpdate c9Player c9Keys level1Platforms []).1.grounded = false ∧
     (playerUpdate c9Player c9Keys level1Platforms []).2 = [Sfx.jump]) := by
  refine ⟨fun pl k snd ha hj hg => ?_, fun pl k snd hg => ?_, ?_, ?_, ?_⟩
  · refine ⟨?_, ?_, ?_⟩ <;> simp [applyInput, ha, hj, hg]
  · by_cases ha : pl.alive = true
    · refine ⟨?_, ?_, ?_⟩ <;> simp [applyInput, ha, hg]
    · have ha2 : pl.alive = false := by
        revert ha; cases pl.alive <;> simp
      refine ⟨?_, ?_, ?_⟩ <;> simp [applyInput, ha2, hg]
  · set_option maxRecDepth 8000 in
    norm_num [playerUpdate, applyInput, animStep, Player.physics, moveH, moveV,
      hStep, vStep, c9Player, c9Keys, mkPlayer, overlapsB, Player.rect,
      level1Platforms, velXStep, JUMP_IMPULSE, GRAVITY, PLAYER_ACCEL,
      PLAYER_DECEL, PLAYER_MAX_SPEED]
  · set_option maxRecDepth 8000 in
    norm_num [playerUpdate, applyInput, animStep, Player.physics, moveH, moveV,
      hStep, vStep, c9Player, c9Keys, mkPlayer, overlapsB, Player.rect,
      level1Platforms, velXStep, JUMP_IMPULSE, GRAVITY, PLAYER_ACCEL,
      PLAYER_DECEL, PLAYER_MAX_SPEED]
  · set_option maxRecDepth 8000 in
    norm_num [playerUpdate, applyInput, animStep, Player.physics, moveH, moveV,
      hStep, vStep, c9Player, c9Keys, mkPlayer, overlapsB, Player.rect,
      level1Platforms, velXStep, JUMP_IMPULSE, GRAVITY, PLAYER_ACCEL,
      PLAYER_DECEL, PLAYER_MAX_SPEED]

/-- Witness for C9: the grounded spawn player with jump held leaves
`apply_input` with `vel_y = -JUMP_IMPULSE`. -/
theorem claim_C9_witness :
    (applyInput c9Player c9Keys []).1.velY = -JUMP_IMPULSE :=
  (claim_C9.1 c9Player c9Keys [] rfl rfl rfl).1
